import Mathlib

/-!
new_delete_checker: the allocation registry and the interception layer

A shallow embedding of `new_delete_checker.hpp`.

* A pointer (`void*`) is its address, a `Nat`; `nullptr` is `0`.
* The intrusive singly linked list hanging off `list_root` is a `List` of
  items: the head of the list is `*list_root`, the tail of a cell is what its
  `next` field points to, and the empty list is `nullptr`.
* `std::cerr` and a `std::stringstream` are the `String` written so far; every
  `<<` appends to it.
* How `operator<<` prints a `void*` is implementation-defined, so the pointer
  formatter is a parameter `fmt` of every function that prints a pointer.
* `std::size_t` and `int` values are only stored and printed, never computed
  with, so they are `Nat` and `Int`.
* `remove` builds its message in a `std::stringstream` and returns it in a
  `std::string`. Their heap blocks come from `operator new(std::size_t)` of
  this very header, so they pass through `memory_map.add` while `remove` runs.
  `MemoryInfoManager.remove` and `free_memory` are the statements of the two
  functions without those nested calls; `remove_reentrant` and
  `free_memory_reentrant` are the same calls with the record of the block that
  is still live at return, and `MemoryOperationResult.destructor` is the end
  of that block.
-/

namespace new_delete_checker_internal

/-- Result of a registry operation (`struct MemoryOperationResult`). -/
structure MemoryOperationResult where
  success : Bool
  error : String
  deriving DecidableEq, Repr

/-- The constructor `MemoryOperationResult(std::string error)`. -/
def MemoryOperationResult.ctor (error : String) : MemoryOperationResult :=
  { error := error, success := decide (error = "") }

/-- One cell of the list (`struct MemoryChunkInfoItem`), without its `next`
field, which is the tail of the list the cell stands in. -/
structure MemoryChunkInfoItem where
  ptr : Nat
  size : Nat
  is_array : Bool
  file : String
  line : Int
  deriving DecidableEq, Repr

/-- The registry (`class MemoryInfoManager`): its only field is `list_root`. -/
structure MemoryInfoManager where
  list_root : List MemoryChunkInfoItem
  deriving DecidableEq, Repr

/-- The registry as constructed: `list_root = nullptr`. -/
def MemoryInfoManager.empty : MemoryInfoManager := { list_root := [] }

/-- `MemoryInfoManager::add`: a fresh cell is filled with the five arguments,
its `next` is the old root, and it becomes the root. -/
def MemoryInfoManager.add (m : MemoryInfoManager) (ptr : Nat) (size : Nat)
    (is_array : Bool) (file : String) (line : Int) : MemoryInfoManager :=
  let item : MemoryChunkInfoItem :=
    { ptr := ptr, size := size, is_array := is_array, file := file, line := line }
  { list_root := item :: (match m.list_root with
                          | [] => []
                          | c :: n => c :: n) }

/-- The `while (cur)` loop of `MemoryInfoManager::extract_info`, started at the
cell `cur`: the result is the cell cut out (or `none` for `nullptr`) and the
list that starts where `cur` started once the cell is unlinked. Unlinking
assigns `cur->next` to `prev->next` (or to `list_root` when there is no
`prev`), which in list terms drops `cur` and keeps everything before and
after it. -/
def extract_loop (ptr : Nat) :
    List MemoryChunkInfoItem → Option MemoryChunkInfoItem × List MemoryChunkInfoItem
  | [] => (none, [])
  | cur :: next =>
    if cur.ptr = ptr then (some cur, next)
    else
      let r := extract_loop ptr next
      (r.1, cur :: r.2)

/-- `MemoryInfoManager::extract_info`: cuts the first cell whose `ptr` is the
argument out of the list and returns it. -/
def MemoryInfoManager.extract_info (m : MemoryInfoManager) (ptr : Nat) :
    Option MemoryChunkInfoItem × MemoryInfoManager :=
  match m.list_root with
  | [] => (none, m)
  | c :: n =>
    let r := extract_loop ptr (c :: n)
    (r.1, { list_root := r.2 })

/-- The text `MemoryInfoManager::remove` streams into `error`, given what
`extract_info` returned. -/
def remove_error (fmt : Nat → String) (removed : Option MemoryChunkInfoItem)
    (ptr : Nat) (is_array : Bool) : String :=
  let error := ""
  match removed with
  | none =>
    error ++ "Delete" ++ (if is_array then "[]" else "") ++ " of unknown pointer " ++ fmt ptr
  | some removed =>
    if removed.is_array && !is_array then
      error ++ fmt ptr ++ " (allocated at " ++ removed.file ++ ":" ++ toString removed.line
        ++ ") is ARRAY ---> use 'delete[]' instead of 'delete'"
    else if !removed.is_array && is_array then
      error ++ fmt ptr ++ " (allocated at " ++ removed.file ++ ":" ++ toString removed.line
        ++ ") as NOT ARRAY ---> use 'delete' instead of 'delete[]'"
    else error

/-- `MemoryInfoManager::remove`, its own statements: the result, and the
registry as `extract_info` leaves it. The record that the heap block of the
returned message adds to the registry through `operator new` is not in here;
`remove_reentrant` has it. The two agree on the result, and on the registry
whenever the message needs no heap block, as on every successful release. -/
def MemoryInfoManager.remove (fmt : Nat → String) (m : MemoryInfoManager) (ptr : Nat)
    (is_array : Bool) : MemoryOperationResult × MemoryInfoManager :=
  let r := m.extract_info ptr
  (MemoryOperationResult.ctor (remove_error fmt r.1 ptr is_array), r.2)

/-- `MemoryInfoManager::print_leak`: the characters appended to `std::cerr`. -/
def print_leak (fmt : Nat → String) (cerr : String) (leak : MemoryChunkInfoItem) : String :=
  cerr ++ "LEAK " ++ toString leak.size ++ " bytes at " ++ fmt leak.ptr
    ++ " (allocated at " ++ leak.file ++ ":" ++ toString leak.line ++ ")\n"

/-- The `while (cur)` loop of `~MemoryInfoManager`, started at `cur` with
`cerr` written so far. -/
def destructor_loop (fmt : Nat → String) : List MemoryChunkInfoItem → String → String
  | [], cerr => cerr
  | cur :: next, cerr => destructor_loop fmt next (print_leak fmt cerr cur)

/-- `MemoryInfoManager::~MemoryInfoManager`: every cell is printed and freed,
then `list_root = nullptr`. The result is the registry afterwards and
`std::cerr`. -/
def MemoryInfoManager.destructor (fmt : Nat → String) (m : MemoryInfoManager) (cerr : String) :
    MemoryInfoManager × String :=
  ({ list_root := [] }, destructor_loop fmt m.list_root cerr)

/-- The process state the interception layer works on: the global
`memory_map`, what has been written to `std::cerr`, and the pointers handed to
`std::free` by `free_memory`, latest first. -/
structure World where
  memory_map : MemoryInfoManager
  cerr : String
  freed : List Nat
  deriving DecidableEq, Repr

/-- `free_memory`, its own statements: releases the record, writes the warning
when the release failed, frees the raw memory and returns the result. The
registry is the one of `MemoryInfoManager.remove`; `free_memory_reentrant` has
the record of the message's heap block as well. -/
def free_memory (fmt : Nat → String) (w : World) (ptr : Nat) (is_array : Bool) :
    MemoryOperationResult × World :=
  let r := w.memory_map.remove fmt ptr is_array
  let result := r.1
  let cerr :=
    if !result.success then w.cerr ++ "WARN new_delete_checker: " ++ result.error ++ "\n"
    else w.cerr
  (result, { memory_map := r.2, cerr := cerr, freed := ptr :: w.freed })

/-- How a call of an allocation entry point ends: it returns a pointer, or it
throws `std::bad_alloc`. -/
inductive AllocationOutcome where
  | returned (ptr : Nat)
  | bad_alloc
  deriving DecidableEq, Repr

/-- `allocate_memory`. `malloced` is the pointer `std::malloc(count)` returned,
`0` for `nullptr`. -/
def allocate_memory (w : World) (malloced : Nat) (count : Nat) (is_array : Bool)
    (file : String) (line : Int) (throw_on_fail : Bool) : AllocationOutcome × World :=
  let ptr := malloced
  if (ptr == 0) && throw_on_fail then
    (AllocationOutcome.bad_alloc,
      { memory_map := w.memory_map,
        cerr := w.cerr ++ "Can't allocate " ++ toString count ++ " bytes!\n",
        freed := w.freed })
  else
    (AllocationOutcome.returned ptr,
      { memory_map := w.memory_map.add ptr count is_array file line,
        cerr := w.cerr,
        freed := w.freed })

/-- `operator new(std::size_t count, const char* file, int line)`; the
parameter `throw_on_fail` of `allocate_memory` takes its default, `true`. -/
def operator_new_file_line (w : World) (malloced : Nat) (count : Nat) (file : String)
    (line : Int) : AllocationOutcome × World :=
  allocate_memory w malloced count false file line true

/-- `operator new[](std::size_t count, const char* file, int line)`. -/
def operator_new_array_file_line (w : World) (malloced : Nat) (count : Nat) (file : String)
    (line : Int) : AllocationOutcome × World :=
  allocate_memory w malloced count true file line true

/-- `operator new(std::size_t count)`. -/
def operator_new (w : World) (malloced : Nat) (count : Nat) : AllocationOutcome × World :=
  allocate_memory w malloced count false "UNKNOWN" (-1) true

/-- `operator new[](std::size_t count)`. -/
def operator_new_array (w : World) (malloced : Nat) (count : Nat) : AllocationOutcome × World :=
  allocate_memory w malloced count true "UNKNOWN" (-1) true

/-- `operator delete(void* ptr)`: the result of `free_memory` is dropped. -/
def operator_delete (fmt : Nat → String) (w : World) (ptr : Nat) : World :=
  (free_memory fmt w ptr false).2

/-- `operator delete[](void* ptr)`. -/
def operator_delete_array (fmt : Nat → String) (w : World) (ptr : Nat) : World :=
  (free_memory fmt w ptr true).2

/-- What `std::string` asks of the heap, which is the library's own business:
a text of at most `local_capacity` bytes is kept inside the string object, and
for a longer text of `len` bytes the string asks `operator new` for
`request len` bytes. -/
structure StdString where
  local_capacity : Nat
  request : Nat → Nat

/-- `memory_map.remove(ptr, is_array)` up to its return, with the call of
`operator new(std::size_t)` that is still in force when it returns. The record
is cut out first (l.110); then the message is built and copied into the
`error` of the returned result (l.112-132, l.38-41). When the text does not fit
inside the string object, the block that holds it was asked of
`operator new(std::size_t)`, which recorded it at the head of the same
registry as a scalar from `UNKNOWN:-1`; `malloced` is what `std::malloc`
returned for it. When `std::malloc` returned `nullptr` the hook wrote its
diagnostic and threw `std::bad_alloc`: there is no result then, `none`.
Blocks the library took and gave back before the return (the buffer of the
stream, temporaries) went through `operator new` and `operator delete` as
well and left no record, see `library_block_leaves_no_record`; they are
assumed to have been granted. -/
def remove_reentrant (fmt : Nat → String) (ss : StdString) (w : World) (ptr : Nat)
    (is_array : Bool) (malloced : Nat) : Option MemoryOperationResult × World :=
  let r := w.memory_map.remove fmt ptr is_array
  let w1 : World := { memory_map := r.2, cerr := w.cerr, freed := w.freed }
  if r.1.error.utf8ByteSize ≤ ss.local_capacity then (some r.1, w1)
  else
    let a := operator_new w1 malloced (ss.request r.1.error.utf8ByteSize)
    match a.1 with
    | AllocationOutcome.returned _ => (some r.1, a.2)
    | AllocationOutcome.bad_alloc => (none, a.2)

/-- `free_memory` up to its return, on top of `remove_reentrant`: when
`remove` returned, the warning is written if the release failed, the raw
memory is freed and the result is returned; when `std::bad_alloc` left
`remove` it leaves `free_memory` too. -/
def free_memory_reentrant (fmt : Nat → String) (ss : StdString) (w : World) (ptr : Nat)
    (is_array : Bool) (malloced : Nat) : Option MemoryOperationResult × World :=
  let r := remove_reentrant fmt ss w ptr is_array malloced
  match r.1 with
  | none => (none, r.2)
  | some result =>
    let cerr :=
      if !result.success then r.2.cerr ++ "WARN new_delete_checker: " ++ result.error ++ "\n"
      else r.2.cerr
    (some result, { memory_map := r.2.memory_map, cerr := cerr, freed := ptr :: r.2.freed })

/-- The end of a `MemoryOperationResult` whose `error`, when it is not kept
inside the string object, sits in the block at `buf`: the block goes to
`operator delete(void*)`, that is to `free_memory(buf, false)`, whose own
result ends in the same way. `mallocs` are the pointers the following calls
of `std::malloc` return, and `nullptr` once the list is used up. `none`
stands for `std::bad_alloc` leaving a nested `remove`. With the list used up
a nested result that was returned can only be one kept inside the string
object, whose end does nothing. -/
def MemoryOperationResult.destructor (fmt : Nat → String) (ss : StdString) :
    List Nat → World → MemoryOperationResult → Nat → Option World
  | [], w, r, buf =>
    if r.error.utf8ByteSize ≤ ss.local_capacity then some w
    else
      let f := free_memory_reentrant fmt ss w buf false 0
      match f.1 with
      | none => none
      | some _ => some f.2
  | b :: rest, w, r, buf =>
    if r.error.utf8ByteSize ≤ ss.local_capacity then some w
    else
      let f := free_memory_reentrant fmt ss w buf false b
      match f.1 with
      | none => none
      | some r2 => MemoryOperationResult.destructor fmt ss rest f.2 r2 b

/-- The addresses of the live records, head first. -/
def MemoryInfoManager.addresses (m : MemoryInfoManager) : List Nat :=
  m.list_root.map MemoryChunkInfoItem.ptr

/-- A call on the public interface of the registry: `add` with its five
arguments, or `remove` with its two. -/
inductive RegistryCall where
  | add (ptr : Nat) (size : Nat) (is_array : Bool) (file : String) (line : Int)
  | remove (ptr : Nat) (is_array : Bool)
  deriving DecidableEq, Repr

/-- The registry after one call; the result of a `remove` is dropped. -/
def MemoryInfoManager.call (fmt : Nat → String) (m : MemoryInfoManager) :
    RegistryCall → MemoryInfoManager
  | .add ptr size is_array file line => m.add ptr size is_array file line
  | .remove ptr is_array => (m.remove fmt ptr is_array).2

/-- The registry after a sequence of calls, made from left to right. -/
def MemoryInfoManager.calls (fmt : Nat → String) (m : MemoryInfoManager)
    (cs : List RegistryCall) : MemoryInfoManager :=
  cs.foldl (MemoryInfoManager.call fmt) m

/-- The precondition of a call in the registry `m`: an `add` needs an address
that no live record holds, a `remove` needs nothing. -/
def RegistryCall.pre (m : MemoryInfoManager) : RegistryCall → Bool
  | .add ptr _ _ _ _ => decide (ptr ∉ m.addresses)
  | .remove _ _ => true

/-- Every call of the sequence meets its precondition in the registry it is
made on. -/
def admissible (fmt : Nat → String) : MemoryInfoManager → List RegistryCall → Bool
  | _, [] => true
  | m, c :: cs => c.pre m && admissible fmt (m.call fmt c) cs

/-- The registry after `add` of every allocation of the list, from left to
right, each with its own five values. -/
def add_all (m : MemoryInfoManager) (xs : List MemoryChunkInfoItem) : MemoryInfoManager :=
  xs.foldl (fun m x => m.add x.ptr x.size x.is_array x.file x.line) m

/-- The results of `remove` for every request `(ptr, is_array)` of the list,
from left to right, and the registry after the last of them. -/
def remove_all (fmt : Nat → String) :
    MemoryInfoManager → List (Nat × Bool) → List MemoryOperationResult × MemoryInfoManager
  | m, [] => ([], m)
  | m, q :: qs =>
    let r := m.remove fmt q.1 q.2
    let rest := remove_all fmt r.2 qs
    (r.1 :: rest.1, rest.2)

/-- The leak report of a record in the words of the specification:
`"LEAK " + sizeBytes + " bytes at " + address + " (allocated at " + file + ":"
+ line + ")"`. -/
def spec_leak_report (fmt : Nat → String) (r : MemoryChunkInfoItem) : String :=
  "LEAK " ++ (toString r.size ++ (" bytes at " ++ (fmt r.ptr ++ (" (allocated at "
    ++ (r.file ++ (":" ++ (toString r.line ++ ")")))))))

/-- The warning line in the words of the specification:
`"WARN: " + <release failure message>`, as one line. -/
def spec_warning (message : String) : String :=
  "WARN: " ++ message ++ "\n"

/-- A pointer formatter to evaluate examples with: `0x` and the address. -/
def fmt0 (p : Nat) : String := "0x" ++ toString p

/-- An example registry: a scalar of 4 bytes at address 100 recorded at
`f.cpp:10`, then an array of 80 bytes at address 200 recorded at `f.cpp:11`. -/
def registry_ab : MemoryInfoManager :=
  (MemoryInfoManager.empty.add 100 4 false "f.cpp" 10).add 200 80 true "f.cpp" 11

/-- An example sequence of calls: two allocations, the release of the first
with the wrong form of delete, and the first address handed out again. -/
def calls_example : List RegistryCall :=
  [ .add 100 4 false "f.cpp" 10, .add 200 80 true "f.cpp" 11, .remove 100 true,
    .add 100 8 true "g.cpp" 3 ]

/-- Example allocations, in the order they are made. -/
def allocs_example : List MemoryChunkInfoItem :=
  [ { ptr := 100, size := 4, is_array := false, file := "f.cpp", line := 10 },
    { ptr := 200, size := 80, is_array := true, file := "f.cpp", line := 11 },
    { ptr := 300, size := 480, is_array := true, file := "test.cpp", line := 15 } ]

/-- The example allocations in another order, the one they are released in. -/
def release_order_example : List MemoryChunkInfoItem :=
  [ { ptr := 200, size := 80, is_array := true, file := "f.cpp", line := 11 },
    { ptr := 300, size := 480, is_array := true, file := "test.cpp", line := 15 },
    { ptr := 100, size := 4, is_array := false, file := "f.cpp", line := 10 } ]

/-- The registry of the scenario: from the empty registry, a scalar of 4 bytes
at address `A` recorded at `f.cpp:10`, then an array of 80 bytes at address `B`
recorded at `f.cpp:11`. -/
def scenario_registry (A B : Nat) : MemoryInfoManager :=
  (MemoryInfoManager.empty.add A 4 false "f.cpp" 10).add B 80 true "f.cpp" 11

/-- The process at its start: no record, nothing written, nothing freed. -/
def world_start : World :=
  { memory_map := MemoryInfoManager.empty, cerr := "", freed := [] }

/-! ## The list surgery of `extract_info` -/

theorem extract_loop_eq (p : Nat) (l : List MemoryChunkInfoItem) :
    extract_loop p l
      = (l.find? (fun c => decide (c.ptr = p)), l.eraseP (fun c => decide (c.ptr = p))) := by
  induction l with
  | nil => rfl
  | cons c n ih =>
    by_cases h : c.ptr = p
    · simp [extract_loop, h]
    · simp [extract_loop, h, ih]

theorem extract_info_eq (m : MemoryInfoManager) (p : Nat) :
    m.extract_info p
      = (m.list_root.find? (fun c => decide (c.ptr = p)),
         { list_root := m.list_root.eraseP (fun c => decide (c.ptr = p)) }) := by
  cases m with
  | mk l =>
    cases l with
    | nil => rfl
    | cons c n => simp [MemoryInfoManager.extract_info, extract_loop_eq]

theorem map_ptr_eraseP (p : Nat) (l : List MemoryChunkInfoItem) :
    (l.eraseP (fun c => decide (c.ptr = p))).map MemoryChunkInfoItem.ptr
      = (l.map MemoryChunkInfoItem.ptr).erase p := by
  induction l with
  | nil => rfl
  | cons c n ih =>
    by_cases h : c.ptr = p
    · simp [List.eraseP_cons, h]
    · have h2 : ¬ (c.ptr == p) = true := by simpa using h
      simp [List.eraseP_cons, h, ih, List.erase_cons, h2]

theorem string_append_ne_empty_right (s t : String) (h : t ≠ "") : s ++ t ≠ "" := by
  intro hc
  have h1 : (s ++ t).length = 0 := by rw [hc]; rfl
  rw [String.length_append] at h1
  have h2 : t.length = 0 := by omega
  apply h
  cases t with
  | mk d =>
    have : d = [] := List.length_eq_zero.mp h2
    subst this; rfl

theorem string_append_ne_empty_left (s t : String) (h : s ≠ "") : s ++ t ≠ "" := by
  intro hc
  have h1 : (s ++ t).length = 0 := by rw [hc]; rfl
  rw [String.length_append] at h1
  have h2 : s.length = 0 := by omega
  apply h
  cases s with
  | mk d =>
    have : d = [] := List.length_eq_zero.mp h2
    subst this; rfl

theorem remove_error_none_ne (fmt : Nat → String) (a : Nat) (s : Bool) :
    remove_error fmt none a s ≠ "" := by
  unfold remove_error
  apply string_append_ne_empty_left
  apply string_append_ne_empty_left
  apply string_append_ne_empty_left
  decide

theorem remove_error_array_scalar (fmt : Nat → String) (r : MemoryChunkInfoItem) (a : Nat)
    (hr : r.is_array = true) :
    remove_error fmt (some r) a false
      = fmt a ++ " (allocated at " ++ r.file ++ ":" ++ toString r.line
          ++ ") is ARRAY ---> use 'delete[]' instead of 'delete'" := by
  simp [remove_error, hr]

theorem remove_error_scalar_array (fmt : Nat → String) (r : MemoryChunkInfoItem) (a : Nat)
    (hr : r.is_array = false) :
    remove_error fmt (some r) a true
      = fmt a ++ " (allocated at " ++ r.file ++ ":" ++ toString r.line
          ++ ") as NOT ARRAY ---> use 'delete' instead of 'delete[]'" := by
  simp [remove_error, hr]

theorem remove_error_match (fmt : Nat → String) (r : MemoryChunkInfoItem) (a : Nat) :
    remove_error fmt (some r) a r.is_array = "" := by
  cases hr : r.is_array <;> simp [remove_error, hr]

theorem remove_error_some_eq_empty_iff (fmt : Nat → String) (r : MemoryChunkInfoItem)
    (a : Nat) (s : Bool) :
    remove_error fmt (some r) a s = "" ↔ r.is_array = s := by
  constructor
  · intro h
    cases hr : r.is_array <;> cases s <;> try rfl
    · rw [remove_error_scalar_array fmt r a hr] at h
      exact absurd h (string_append_ne_empty_right _ _ (by decide))
    · rw [remove_error_array_scalar fmt r a hr] at h
      exact absurd h (string_append_ne_empty_right _ _ (by decide))
  · intro h
    subst h
    exact remove_error_match fmt r a

theorem find_ptr_eq_some_iff (l : List MemoryChunkInfoItem) (a : Nat) (r : MemoryChunkInfoItem)
    (h : (l.map MemoryChunkInfoItem.ptr).Nodup) :
    l.find? (fun c => decide (c.ptr = a)) = some r ↔ r ∈ l ∧ r.ptr = a := by
  constructor
  · intro hf
    exact ⟨List.mem_of_find?_eq_some hf, by simpa using List.find?_some hf⟩
  · rintro ⟨hr, hp⟩
    cases hf : l.find? (fun c => decide (c.ptr = a)) with
    | none =>
      have := List.find?_eq_none.mp hf r hr
      simp [hp] at this
    | some r' =>
      have h1 : r' ∈ l := List.mem_of_find?_eq_some hf
      have h2 : r'.ptr = a := by simpa using List.find?_some hf
      have : r' = r := List.inj_on_of_nodup_map h h1 hr (by rw [h2, hp])
      rw [this]

theorem find_ptr_eq_none_iff (l : List MemoryChunkInfoItem) (a : Nat) :
    l.find? (fun c => decide (c.ptr = a)) = none ↔ ∀ r ∈ l, r.ptr ≠ a := by
  simp [List.find?_eq_none]

theorem eraseP_ptr_eq_erase (l : List MemoryChunkInfoItem) (r : MemoryChunkInfoItem)
    (h : (l.map MemoryChunkInfoItem.ptr).Nodup) (hr : r ∈ l) :
    l.eraseP (fun c => decide (c.ptr = r.ptr)) = l.erase r := by
  induction l with
  | nil => simp at hr
  | cons c n ih =>
    by_cases hc : c.ptr = r.ptr
    · have : c = r := List.inj_on_of_nodup_map h (List.mem_cons_self c n) hr hc
      subst this
      simp
    · have hne : c ≠ r := fun e => hc (by rw [e])
      have hrn : r ∈ n := by
        rcases List.mem_cons.mp hr with e | e
        · exact absurd e.symm hne
        · exact e
      have hn : (n.map MemoryChunkInfoItem.ptr).Nodup := by
        rw [List.map_cons] at h
        exact (List.nodup_cons.mp h).2
      have hb : ¬ (c == r) = true := by simpa using hne
      rw [List.eraseP_cons, List.erase_cons]
      simp [hc, hb, ih hn hrn]

theorem eraseP_ptr_eq_filter (l : List MemoryChunkInfoItem) (a : Nat)
    (h : (l.map MemoryChunkInfoItem.ptr).Nodup) :
    l.eraseP (fun c => decide (c.ptr = a)) = l.filter (fun c => decide (c.ptr ≠ a)) := by
  induction l with
  | nil => rfl
  | cons c n ih =>
    rw [List.map_cons] at h
    have hn := (List.nodup_cons.mp h).2
    have hc := (List.nodup_cons.mp h).1
    by_cases hca : c.ptr = a
    · have hall : ∀ x ∈ n, x.ptr ≠ a := by
        intro x hx e
        apply hc
        rw [hca, ← e]
        exact List.mem_map_of_mem _ hx
      simp only [List.eraseP_cons, hca, decide_True, cond_true, List.filter_cons, ne_eq,
        not_true_eq_false, decide_False, Bool.false_eq_true, if_false]
      symm
      apply List.filter_eq_self.mpr
      intro x hx
      simpa using hall x hx
    · simp [List.eraseP_cons, hca, ih hn]

/-! ## What the operations of the registry do to `list_root` -/

theorem add_list_root (m : MemoryInfoManager) (a n : Nat) (s : Bool) (f : String) (l : Int) :
    (m.add a n s f l).list_root
      = { ptr := a, size := n, is_array := s, file := f, line := l } :: m.list_root := by
  cases m with
  | mk root => cases root <;> rfl

theorem add_addresses (m : MemoryInfoManager) (a n : Nat) (s : Bool) (f : String) (l : Int) :
    (m.add a n s f l).addresses = a :: m.addresses := by
  simp [MemoryInfoManager.addresses, add_list_root]

theorem remove_fst (fmt : Nat → String) (m : MemoryInfoManager) (a : Nat) (s : Bool) :
    (m.remove fmt a s).1
      = MemoryOperationResult.ctor
          (remove_error fmt (m.list_root.find? (fun c => decide (c.ptr = a))) a s) := by
  simp [MemoryInfoManager.remove, extract_info_eq]

theorem remove_snd (fmt : Nat → String) (m : MemoryInfoManager) (a : Nat) (s : Bool) :
    (m.remove fmt a s).2
      = { list_root := m.list_root.eraseP (fun c => decide (c.ptr = a)) } := by
  simp [MemoryInfoManager.remove, extract_info_eq]

theorem remove_addresses (fmt : Nat → String) (m : MemoryInfoManager) (a : Nat) (s : Bool) :
    (m.remove fmt a s).2.addresses = m.addresses.erase a := by
  rw [remove_snd]
  exact map_ptr_eraseP a m.list_root

theorem ctor_success (e : String) : (MemoryOperationResult.ctor e).success = decide (e = "") := rfl

theorem ctor_error (e : String) : (MemoryOperationResult.ctor e).error = e := rfl

/-! ## What teardown writes -/

theorem string_join_cons (x : String) (xs : List String) :
    String.join (x :: xs) = x ++ String.join xs := by
  have key : ∀ (l : List String) (acc : String),
      List.foldl (fun r s => r ++ s) acc l = acc ++ List.foldl (fun r s => r ++ s) "" l := by
    intro l
    induction l with
    | nil => intro acc; simp
    | cons y ys ih =>
      intro acc
      rw [List.foldl_cons, List.foldl_cons, ih (acc ++ y), ih ("" ++ y)]
      simp [String.append_assoc]
  unfold String.join
  rw [List.foldl_cons, key xs ("" ++ x)]
  simp

theorem print_leak_eq (fmt : Nat → String) (cerr : String) (r : MemoryChunkInfoItem) :
    print_leak fmt cerr r = cerr ++ (spec_leak_report fmt r ++ "\n") := by
  simp [print_leak, spec_leak_report, String.append_assoc]

theorem destructor_loop_eq (fmt : Nat → String) (l : List MemoryChunkInfoItem) (cerr : String) :
    destructor_loop fmt l cerr
      = cerr ++ String.join (l.map (fun r => spec_leak_report fmt r ++ "\n")) := by
  induction l generalizing cerr with
  | nil => simp [destructor_loop, String.join]
  | cons c n ih =>
    rw [destructor_loop, ih, print_leak_eq, List.map_cons, string_join_cons]
    simp [String.append_assoc]

/-! ## The contract of `remove` -/

/-- C1: in a registry where no address appears twice, `remove a s` returns
success with an empty message exactly when the registry holds a record for `a`
whose shape is `s`; in every other case it returns failure with a non-empty
message. -/
theorem remove_success_iff_record_with_shape (fmt : Nat → String) (m : MemoryInfoManager)
    (a : Nat) (s : Bool) (h : m.addresses.Nodup) :
    (((m.remove fmt a s).1.success = true ∧ (m.remove fmt a s).1.error = "")
        ↔ ∃ r ∈ m.list_root, r.ptr = a ∧ r.is_array = s)
    ∧ ((¬ ∃ r ∈ m.list_root, r.ptr = a ∧ r.is_array = s)
        → (m.remove fmt a s).1.success = false ∧ (m.remove fmt a s).1.error ≠ "") := by
  have key : (m.remove fmt a s).1.error = ""
      ↔ ∃ r ∈ m.list_root, r.ptr = a ∧ r.is_array = s := by
    rw [remove_fst, ctor_error]
    cases hf : m.list_root.find? (fun c => decide (c.ptr = a)) with
    | none =>
      have hn := (find_ptr_eq_none_iff m.list_root a).mp hf
      constructor
      · intro e
        exact absurd e (remove_error_none_ne fmt a s)
      · rintro ⟨r, hr, hp, _⟩
        exact absurd hp (hn r hr)
    | some r =>
      have hr := (find_ptr_eq_some_iff m.list_root a r h).mp hf
      rw [remove_error_some_eq_empty_iff]
      constructor
      · intro e
        exact ⟨r, hr.1, hr.2, e⟩
      · rintro ⟨x, hx, hp, hs⟩
        have : x = r := List.inj_on_of_nodup_map h hx hr.1 (by rw [hp, hr.2])
        rw [← this]
        exact hs
  have hsucc : (m.remove fmt a s).1.success = decide ((m.remove fmt a s).1.error = "") := by
    rw [remove_fst]
    rfl
  refine ⟨?_, ?_⟩
  · rw [← key, hsucc]
    simp
  · intro hno
    rw [← key] at hno
    rw [hsucc]
    exact ⟨by simpa using hno, hno⟩

/-- Witness of C1 on the example registry: releasing the array at 200 as a scalar. -/
theorem remove_success_iff_record_with_shape_witness :
    registry_ab.addresses.Nodup
    ∧ ((((registry_ab.remove fmt0 200 false).1.success = true
          ∧ (registry_ab.remove fmt0 200 false).1.error = "")
        ↔ ∃ r ∈ registry_ab.list_root, r.ptr = 200 ∧ r.is_array = false)
      ∧ ((¬ ∃ r ∈ registry_ab.list_root, r.ptr = 200 ∧ r.is_array = false)
        → (registry_ab.remove fmt0 200 false).1.success = false
          ∧ (registry_ab.remove fmt0 200 false).1.error ≠ "")) :=
  ⟨by decide, remove_success_iff_record_with_shape fmt0 registry_ab 200 false (by decide)⟩

/-- C3: in a registry where no address appears twice and which holds the record
`r` for `a`, `remove a s` with `s` different from the shape of `r` fails; its
message is the address, the call site `file:line` of `r` and the instruction
naming the right and the attempted form of delete; `r` is removed all the same
and teardown afterwards reports exactly the records of other addresses. -/
theorem remove_shape_mismatch (fmt : Nat → String) (m : MemoryInfoManager)
    (r : MemoryChunkInfoItem) (a : Nat) (s : Bool) (cerr : String)
    (h : m.addresses.Nodup) (hr : r ∈ m.list_root) (ha : r.ptr = a) (hs : s ≠ r.is_array) :
    (m.remove fmt a s).1.success = false
    ∧ (r.is_array = true → (m.remove fmt a s).1.error
        = fmt a ++ " (allocated at " ++ r.file ++ ":" ++ toString r.line
            ++ ") is ARRAY ---> use 'delete[]' instead of 'delete'")
    ∧ (r.is_array = false → (m.remove fmt a s).1.error
        = fmt a ++ " (allocated at " ++ r.file ++ ":" ++ toString r.line
            ++ ") as NOT ARRAY ---> use 'delete' instead of 'delete[]'")
    ∧ r ∉ (m.remove fmt a s).2.list_root
    ∧ (∀ x ∈ (m.remove fmt a s).2.list_root, x.ptr ≠ a)
    ∧ ((m.remove fmt a s).2.destructor fmt cerr).2
        = cerr ++ String.join ((m.list_root.filter (fun c => decide (c.ptr ≠ a))).map
            (fun x => spec_leak_report fmt x ++ "\n")) := by
  have hf : m.list_root.find? (fun c => decide (c.ptr = a)) = some r :=
    (find_ptr_eq_some_iff m.list_root a r h).mpr ⟨hr, ha⟩
  have hgone : ∀ x ∈ (m.remove fmt a s).2.list_root, x.ptr ≠ a := by
    intro x hx e
    have hmem : x.ptr ∈ (m.remove fmt a s).2.addresses := List.mem_map_of_mem _ hx
    rw [remove_addresses, e] at hmem
    exact ((List.Nodup.mem_erase_iff h).mp hmem).1 rfl
  have herr : (m.remove fmt a s).1.error = remove_error fmt (some r) a s := by
    rw [remove_fst, ctor_error, hf]
  have hne : remove_error fmt (some r) a s ≠ "" := by
    intro e
    exact hs ((remove_error_some_eq_empty_iff fmt r a s).mp e).symm
  refine ⟨?_, ?_, ?_, ?_, hgone, ?_⟩
  · rw [remove_fst, ctor_success, hf]
    simpa using hne
  · intro hra
    have hs2 : s = false := by
      cases s
      · rfl
      · exact absurd hra.symm hs
    rw [herr, hs2]
    exact remove_error_array_scalar fmt r a hra
  · intro hra
    have hs2 : s = true := by
      cases s
      · exact absurd hra.symm hs
      · rfl
    rw [herr, hs2]
    exact remove_error_scalar_array fmt r a hra
  · intro hmem
    exact hgone r hmem ha
  · rw [remove_snd]
    simp only [MemoryInfoManager.destructor]
    rw [destructor_loop_eq, eraseP_ptr_eq_filter m.list_root a h]

/-- Witness of C3 on the example registry: the scalar at 100 released as an array. -/
theorem remove_shape_mismatch_witness :
    registry_ab.addresses.Nodup
    ∧ ({ ptr := 100, size := 4, is_array := false, file := "f.cpp", line := 10 }
        : MemoryChunkInfoItem) ∈ registry_ab.list_root
    ∧ (registry_ab.remove fmt0 100 true).1.success = false
    ∧ (registry_ab.remove fmt0 100 true).1.error
        = fmt0 100 ++ " (allocated at " ++ "f.cpp" ++ ":" ++ toString (10 : Int)
            ++ ") as NOT ARRAY ---> use 'delete' instead of 'delete[]'"
    ∧ (∀ x ∈ (registry_ab.remove fmt0 100 true).2.list_root, x.ptr ≠ 100)
    ∧ ((registry_ab.remove fmt0 100 true).2.destructor fmt0 "").2
        = "" ++ String.join ((registry_ab.list_root.filter (fun c => decide (c.ptr ≠ 100))).map
            (fun x => spec_leak_report fmt0 x ++ "\n")) :=
  have w := remove_shape_mismatch fmt0 registry_ab
    { ptr := 100, size := 4, is_array := false, file := "f.cpp", line := 10 } 100 true ""
    (by decide) (by decide) rfl (by decide)
  ⟨by decide, by decide, w.1, w.2.2.1 rfl, w.2.2.2.2.1, w.2.2.2.2.2⟩

/-! ## The contract of `add` -/

/-- C5: `add` yields the registry whose head is a new record holding exactly
the five values given and whose remaining records are the previous registry,
unchanged and in the same order; the number of live records grows by one. -/
theorem add_inserts_at_head (m : MemoryInfoManager) (a n : Nat) (s : Bool) (f : String)
    (l : Int) :
    (m.add a n s f l).list_root
        = { ptr := a, size := n, is_array := s, file := f, line := l } :: m.list_root
    ∧ (m.add a n s f l).list_root.length = m.list_root.length + 1 := by
  rw [add_list_root]
  exact ⟨rfl, rfl⟩

/-! ## Sequences of calls -/

theorem calls_append (fmt : Nat → String) (m : MemoryInfoManager) (cs : List RegistryCall)
    (c : RegistryCall) :
    m.calls fmt (cs ++ [c]) = (m.calls fmt cs).call fmt c := by
  simp [MemoryInfoManager.calls, List.foldl_append]

theorem admissible_append (fmt : Nat → String) (m : MemoryInfoManager)
    (cs : List RegistryCall) (c : RegistryCall) :
    admissible fmt m (cs ++ [c]) = (admissible fmt m cs && c.pre (m.calls fmt cs)) := by
  induction cs generalizing m with
  | nil => simp [admissible, MemoryInfoManager.calls]
  | cons d ds ih =>
    show (d.pre m && admissible fmt (m.call fmt d) (ds ++ [c])) = _
    rw [ih]
    simp [admissible, MemoryInfoManager.calls, Bool.and_assoc]

/-- C6: in every registry reached from the empty one by a sequence of `add` and
`remove` calls in which each `add` is given an address not present at that
moment, no address appears in two records, and every address present was the
argument of an earlier `add` that no later `remove` of the sequence names. -/
theorem calls_invariant (fmt : Nat → String) (cs : List RegistryCall)
    (h : admissible fmt MemoryInfoManager.empty cs = true) :
    (MemoryInfoManager.empty.calls fmt cs).addresses.Nodup
    ∧ ∀ a ∈ (MemoryInfoManager.empty.calls fmt cs).addresses,
        ∃ before n s f l after,
          cs = before ++ RegistryCall.add a n s f l :: after
          ∧ ∀ s2, RegistryCall.remove a s2 ∉ after := by
  induction cs using List.reverseRecOn with
  | nil =>
    refine ⟨List.nodup_nil, ?_⟩
    intro a ha
    simp [MemoryInfoManager.calls, MemoryInfoManager.empty, MemoryInfoManager.addresses] at ha
  | append_singleton cs c ih =>
    rw [admissible_append, Bool.and_eq_true] at h
    obtain ⟨hnd, hprov⟩ := ih h.1
    have hpre := h.2
    rw [calls_append]
    cases c with
    | add p n s f l =>
      have hp : p ∉ (MemoryInfoManager.empty.calls fmt cs).addresses := by
        simpa [RegistryCall.pre] using hpre
      simp only [MemoryInfoManager.call, add_addresses]
      refine ⟨List.nodup_cons.mpr ⟨hp, hnd⟩, ?_⟩
      intro a ha
      rcases List.mem_cons.mp ha with e | hmem
      · subst e
        exact ⟨cs, n, s, f, l, [], rfl, by simp⟩
      · obtain ⟨before, n2, s2, f2, l2, after, hcs, hno⟩ := hprov a hmem
        refine ⟨before, n2, s2, f2, l2, after ++ [RegistryCall.add p n s f l], ?_, ?_⟩
        · rw [hcs]
          simp
        · intro s3 hin
          rcases List.mem_append.mp hin with h1 | h1
          · exact hno s3 h1
          · simp at h1
    | remove p s =>
      simp only [MemoryInfoManager.call, remove_addresses]
      refine ⟨hnd.erase p, ?_⟩
      intro a ha
      have hmem := (List.Nodup.mem_erase_iff hnd).mp ha
      obtain ⟨before, n2, s2, f2, l2, after, hcs, hno⟩ := hprov a hmem.2
      refine ⟨before, n2, s2, f2, l2, after ++ [RegistryCall.remove p s], ?_, ?_⟩
      · rw [hcs]
        simp
      · intro s3 hin
        rcases List.mem_append.mp hin with h1 | h1
        · exact hno s3 h1
        · simp at h1
          exact hmem.1 h1.1

/-- Witness of C6 on the example sequence of calls. -/
theorem calls_invariant_witness :
    admissible fmt0 MemoryInfoManager.empty calls_example = true
    ∧ (MemoryInfoManager.empty.calls fmt0 calls_example).addresses.Nodup
    ∧ ∀ a ∈ (MemoryInfoManager.empty.calls fmt0 calls_example).addresses,
        ∃ before n s f l after,
          calls_example = before ++ RegistryCall.add a n s f l :: after
          ∧ ∀ s2, RegistryCall.remove a s2 ∉ after :=
  ⟨by decide, calls_invariant fmt0 calls_example (by decide)⟩

theorem add_all_list_root (m : MemoryInfoManager) (xs : List MemoryChunkInfoItem) :
    (add_all m xs).list_root = xs.reverse ++ m.list_root := by
  induction xs generalizing m with
  | nil => rfl
  | cons x xs ih =>
    show (add_all (m.add x.ptr x.size x.is_array x.file x.line) xs).list_root = _
    rw [ih, add_list_root]
    simp

theorem remove_all_perm (fmt : Nat → String) (ys l : List MemoryChunkInfoItem)
    (hnd : (l.map MemoryChunkInfoItem.ptr).Nodup) (hperm : ys.Perm l) :
    remove_all fmt { list_root := l } (ys.map (fun y => (y.ptr, y.is_array)))
      = (List.replicate ys.length { success := true, error := "" }, { list_root := [] }) := by
  induction ys generalizing l with
  | nil =>
    have : l = [] := List.nil_perm.mp hperm
    subst this
    rfl
  | cons y ys ih =>
    obtain ⟨hy, hrest⟩ := List.cons_perm_iff_perm_erase.mp hperm
    have hf : l.find? (fun c => decide (c.ptr = y.ptr)) = some y :=
      (find_ptr_eq_some_iff l y.ptr y hnd).mpr ⟨hy, rfl⟩
    have h1 : (MemoryInfoManager.remove fmt { list_root := l } y.ptr y.is_array).1
        = { success := true, error := "" } := by
      rw [remove_fst]
      simp only [hf, remove_error_match]
      rfl
    have h2 : (MemoryInfoManager.remove fmt { list_root := l } y.ptr y.is_array).2
        = { list_root := l.erase y } := by
      rw [remove_snd]
      simp only [eraseP_ptr_eq_erase l y hnd hy]
    have hnd2 : ((l.erase y).map MemoryChunkInfoItem.ptr).Nodup := by
      rw [← eraseP_ptr_eq_erase l y hnd hy, map_ptr_eraseP]
      exact hnd.erase _
    show (_ :: (remove_all fmt _ _).1, (remove_all fmt _ _).2) = _
    rw [h1, h2, ih (l.erase y) hnd2 hrest]
    rfl

/-- C7: allocations with pairwise distinct addresses are recorded into an empty
registry and then every one of them is released once, with the shape it was
recorded with, in any order: every release returns success with no message,
the registry ends empty and teardown writes nothing. -/
theorem matched_releases_leave_nothing (fmt : Nat → String)
    (xs ys : List MemoryChunkInfoItem) (cerr : String)
    (hnd : (xs.map MemoryChunkInfoItem.ptr).Nodup) (hperm : ys.Perm xs) :
    (remove_all fmt (add_all MemoryInfoManager.empty xs)
        (ys.map (fun y => (y.ptr, y.is_array)))).1
      = List.replicate xs.length { success := true, error := "" }
    ∧ (remove_all fmt (add_all MemoryInfoManager.empty xs)
        (ys.map (fun y => (y.ptr, y.is_array)))).2 = MemoryInfoManager.empty
    ∧ ((remove_all fmt (add_all MemoryInfoManager.empty xs)
        (ys.map (fun y => (y.ptr, y.is_array)))).2.destructor fmt cerr).2 = cerr := by
  have hroot : add_all MemoryInfoManager.empty xs = { list_root := xs.reverse } := by
    have := add_all_list_root MemoryInfoManager.empty xs
    cases hm : add_all MemoryInfoManager.empty xs with
    | mk root =>
      rw [hm] at this
      simp only [MemoryInfoManager.empty, List.append_nil] at this
      rw [this]
  have hnd2 : (xs.reverse.map MemoryChunkInfoItem.ptr).Nodup := by
    rw [List.map_reverse]
    exact List.nodup_reverse.mpr hnd
  have hperm2 : ys.Perm xs.reverse := hperm.trans (List.reverse_perm xs).symm
  rw [hroot, remove_all_perm fmt ys xs.reverse hnd2 hperm2, hperm.length_eq]
  exact ⟨rfl, rfl, rfl⟩

/-- Witness of C7: three allocations released in another order than recorded. -/
theorem matched_releases_leave_nothing_witness :
    (allocs_example.map MemoryChunkInfoItem.ptr).Nodup
    ∧ release_order_example.Perm allocs_example
    ∧ (remove_all fmt0 (add_all MemoryInfoManager.empty allocs_example)
        (release_order_example.map (fun y => (y.ptr, y.is_array)))).1
      = List.replicate allocs_example.length { success := true, error := "" }
    ∧ (remove_all fmt0 (add_all MemoryInfoManager.empty allocs_example)
        (release_order_example.map (fun y => (y.ptr, y.is_array)))).2 = MemoryInfoManager.empty
    ∧ ((remove_all fmt0 (add_all MemoryInfoManager.empty allocs_example)
        (release_order_example.map (fun y => (y.ptr, y.is_array)))).2.destructor fmt0 "").2
      = "" :=
  ⟨by decide, by decide,
    matched_releases_leave_nothing fmt0 allocs_example release_order_example ""
      (by decide) (by decide)⟩

/-! ## Teardown -/

/-- C8: teardown writes one leak line per record still present, each with the
size, address and call site of its record, from the head of the list on, and
leaves the registry without records. The head is the most recent: records
added one after the other are reported latest first, ahead of the older ones,
and `remove` keeps the order of the records it leaves. -/
theorem destructor_reports_every_record (fmt : Nat → String) (m : MemoryInfoManager)
    (cerr : String) (xs : List MemoryChunkInfoItem) (a : Nat) (s : Bool) :
    (m.destructor fmt cerr).2
      = cerr ++ String.join (m.list_root.map (fun r => spec_leak_report fmt r ++ "\n"))
    ∧ (m.destructor fmt cerr).1.list_root = []
    ∧ ((add_all m xs).destructor fmt cerr).2
      = cerr ++ String.join ((xs.reverse ++ m.list_root).map
          (fun r => spec_leak_report fmt r ++ "\n"))
    ∧ (m.remove fmt a s).2.list_root.Sublist m.list_root := by
  refine ⟨?_, rfl, ?_, ?_⟩
  · exact destructor_loop_eq fmt m.list_root cerr
  · show destructor_loop fmt (add_all m xs).list_root cerr = _
    rw [destructor_loop_eq, add_all_list_root]
  · rw [remove_snd]
    exact List.eraseP_sublist m.list_root

/-- C9: one allocation recorded into an empty registry and never released makes
teardown write exactly one leak line, `LEAK n bytes at a (allocated at f:l)`. -/
theorem single_leak_report (fmt : Nat → String) (a n : Nat) (s : Bool) (f : String) (l : Int)
    (cerr : String) :
    ((MemoryInfoManager.empty.add a n s f l).destructor fmt cerr).2
      = cerr ++ ("LEAK " ++ toString n ++ " bytes at " ++ fmt a ++ " (allocated at " ++ f
          ++ ":" ++ toString l ++ ")") ++ "\n"
    ∧ ((MemoryInfoManager.empty.add a n s f l).destructor fmt cerr).2
      = cerr ++ spec_leak_report fmt
          { ptr := a, size := n, is_array := s, file := f, line := l } ++ "\n" := by
  have h : ((MemoryInfoManager.empty.add a n s f l).destructor fmt cerr).2
      = print_leak fmt cerr { ptr := a, size := n, is_array := s, file := f, line := l } := by
    simp [MemoryInfoManager.destructor, add_list_root, MemoryInfoManager.empty, destructor_loop]
  rw [h]
  constructor
  · simp [print_leak, String.append_assoc]
  · simp [print_leak_eq, String.append_assoc]

/-! ## The interception layer -/

/-- C10 as stated fails: on the example registry the release of the scalar at
100 as an array fails, and what is written is not `WARN: ` followed by the
message. -/
theorem free_memory_warning_counterexample :
    (registry_ab.remove fmt0 100 true).1.success = false
    ∧ (free_memory fmt0 { memory_map := registry_ab, cerr := "", freed := [] } 100 true).2.cerr
        ≠ "" ++ spec_warning (registry_ab.remove fmt0 100 true).1.error := by
  decide

/-- C10, amended: `free_memory` returns the result of `remove`; when it failed,
exactly `WARN new_delete_checker: `, the failure message and a newline are
appended to the diagnostic stream; when it succeeded nothing is written. -/
theorem free_memory_warning (fmt : Nat → String) (w : World) (p : Nat) (s : Bool) :
    (free_memory fmt w p s).1 = (w.memory_map.remove fmt p s).1
    ∧ (free_memory fmt w p s).2.cerr
        = (if (w.memory_map.remove fmt p s).1.success = true then w.cerr
           else w.cerr ++ ("WARN new_delete_checker: "
                  ++ ((w.memory_map.remove fmt p s).1.error ++ "\n"))) := by
  refine ⟨rfl, ?_⟩
  cases h : (w.memory_map.remove fmt p s).1.success <;>
    simp [free_memory, h, String.append_assoc]


theorem allocate_memory_throwing (w : World) (raw count : Nat) (sh : Bool) (f : String)
    (l : Int) :
    allocate_memory w raw count sh f l true
      = (if raw = 0 then
          (AllocationOutcome.bad_alloc,
            { memory_map := w.memory_map,
              cerr := w.cerr ++ ("Can't allocate " ++ (toString count ++ " bytes!\n")),
              freed := w.freed })
         else
          (AllocationOutcome.returned raw,
            { memory_map :=
                { list_root :=
                    { ptr := raw, size := count, is_array := sh, file := f, line := l }
                      :: w.memory_map.list_root },
              cerr := w.cerr,
              freed := w.freed })) := by
  by_cases h : raw = 0
  · simp [allocate_memory, h, String.append_assoc]
  · have hadd : w.memory_map.add raw count sh f l
        = { list_root :=
              { ptr := raw, size := count, is_array := sh, file := f, line := l }
                :: w.memory_map.list_root } := by
      have := add_list_root w.memory_map raw count sh f l
      cases hm : w.memory_map.add raw count sh f l with
      | mk root =>
        rw [hm] at this
        simp only at this
        rw [this]
    simp [allocate_memory, h, hadd]

/-- C11: each of the four allocation entry points, when the raw primitive
returns no memory, writes the diagnostic, throws `bad_alloc` and leaves the
registry as it was; otherwise it puts exactly one record at the head, with the
returned pointer, the requested size, the shape and the call site of the entry
point, writes nothing and returns that same pointer. -/
theorem allocation_entry_points (w : World) (raw count : Nat) (file : String) (line : Int) :
    operator_new_file_line w raw count file line
      = (if raw = 0 then
          (AllocationOutcome.bad_alloc,
            { memory_map := w.memory_map,
              cerr := w.cerr ++ ("Can't allocate " ++ (toString count ++ " bytes!\n")),
              freed := w.freed })
         else
          (AllocationOutcome.returned raw,
            { memory_map :=
                { list_root :=
                    { ptr := raw, size := count, is_array := false, file := file, line := line }
                      :: w.memory_map.list_root },
              cerr := w.cerr,
              freed := w.freed }))
    ∧ operator_new_array_file_line w raw count file line
      = (if raw = 0 then
          (AllocationOutcome.bad_alloc,
            { memory_map := w.memory_map,
              cerr := w.cerr ++ ("Can't allocate " ++ (toString count ++ " bytes!\n")),
              freed := w.freed })
         else
          (AllocationOutcome.returned raw,
            { memory_map :=
                { list_root :=
                    { ptr := raw, size := count, is_array := true, file := file, line := line }
                      :: w.memory_map.list_root },
              cerr := w.cerr,
              freed := w.freed }))
    ∧ operator_new w raw count
      = (if raw = 0 then
          (AllocationOutcome.bad_alloc,
            { memory_map := w.memory_map,
              cerr := w.cerr ++ ("Can't allocate " ++ (toString count ++ " bytes!\n")),
              freed := w.freed })
         else
          (AllocationOutcome.returned raw,
            { memory_map :=
                { list_root :=
                    { ptr := raw, size := count, is_array := false, file := "UNKNOWN",
                      line := -1 } :: w.memory_map.list_root },
              cerr := w.cerr,
              freed := w.freed }))
    ∧ operator_new_array w raw count
      = (if raw = 0 then
          (AllocationOutcome.bad_alloc,
            { memory_map := w.memory_map,
              cerr := w.cerr ++ ("Can't allocate " ++ (toString count ++ " bytes!\n")),
              freed := w.freed })
         else
          (AllocationOutcome.returned raw,
            { memory_map :=
                { list_root :=
                    { ptr := raw, size := count, is_array := true, file := "UNKNOWN",
                      line := -1 } :: w.memory_map.list_root },
              cerr := w.cerr,
              freed := w.freed })) :=
  ⟨allocate_memory_throwing w raw count false file line,
   allocate_memory_throwing w raw count true file line,
   allocate_memory_throwing w raw count false "UNKNOWN" (-1),
   allocate_memory_throwing w raw count true "UNKNOWN" (-1)⟩

/-- C12: every allocation entry point records the shape of its own form and its
provenance: scalar and array with the given `file` and `line` for the two
forms that carry a call site, scalar and array with `UNKNOWN` and `-1` for the
two that do not; `operator delete` asks for a scalar release and
`operator delete[]` for an array release. -/
theorem entry_points_shape_and_provenance (fmt : Nat → String) (w : World)
    (raw count : Nat) (file : String) (line : Int) (p : Nat) (h : raw ≠ 0) :
    (operator_new_file_line w raw count file line).2.memory_map.list_root.head?
      = some { ptr := raw, size := count, is_array := false, file := file, line := line }
    ∧ (operator_new_array_file_line w raw count file line).2.memory_map.list_root.head?
      = some { ptr := raw, size := count, is_array := true, file := file, line := line }
    ∧ (operator_new w raw count).2.memory_map.list_root.head?
      = some { ptr := raw, size := count, is_array := false, file := "UNKNOWN", line := -1 }
    ∧ (operator_new_array w raw count).2.memory_map.list_root.head?
      = some { ptr := raw, size := count, is_array := true, file := "UNKNOWN", line := -1 }
    ∧ operator_delete fmt w p = (free_memory fmt w p false).2
    ∧ (operator_delete fmt w p).memory_map = (w.memory_map.remove fmt p false).2
    ∧ operator_delete_array fmt w p = (free_memory fmt w p true).2
    ∧ (operator_delete_array fmt w p).memory_map = (w.memory_map.remove fmt p true).2 := by
  refine ⟨?_, ?_, ?_, ?_, rfl, rfl, rfl, rfl⟩
  · simp [operator_new_file_line, allocate_memory_throwing, h]
  · simp [operator_new_array_file_line, allocate_memory_throwing, h]
  · simp [operator_new, allocate_memory_throwing, h]
  · simp [operator_new_array, allocate_memory_throwing, h]

/-- Witness of C12: the four entry points on a process that has allocated
nothing yet, with `malloc` returning address 4096. -/
theorem entry_points_shape_and_provenance_witness :
    (4096 : Nat) ≠ 0
    ∧ (operator_new_file_line world_start 4096 4 "f.cpp" 10).2.memory_map.list_root.head?
      = some { ptr := 4096, size := 4, is_array := false, file := "f.cpp", line := 10 }
    ∧ (operator_new_array_file_line world_start 4096 4 "f.cpp" 10).2.memory_map.list_root.head?
      = some { ptr := 4096, size := 4, is_array := true, file := "f.cpp", line := 10 }
    ∧ (operator_new world_start 4096 4).2.memory_map.list_root.head?
      = some { ptr := 4096, size := 4, is_array := false, file := "UNKNOWN", line := -1 }
    ∧ (operator_new_array world_start 4096 4).2.memory_map.list_root.head?
      = some { ptr := 4096, size := 4, is_array := true, file := "UNKNOWN", line := -1 }
    ∧ operator_delete fmt0 world_start 4096 = (free_memory fmt0 world_start 4096 false).2
    ∧ (operator_delete fmt0 world_start 4096).memory_map
        = (world_start.memory_map.remove fmt0 4096 false).2
    ∧ operator_delete_array fmt0 world_start 4096 = (free_memory fmt0 world_start 4096 true).2
    ∧ (operator_delete_array fmt0 world_start 4096).memory_map
        = (world_start.memory_map.remove fmt0 4096 true).2 :=
  ⟨by decide,
    entry_points_shape_and_provenance fmt0 world_start 4096 4 "f.cpp" 10 4096 (by decide)⟩

/-! ## Scenarios and behaviour across several calls -/

theorem free_memory_fst (fmt : Nat → String) (w : World) (p : Nat) (s : Bool) :
    (free_memory fmt w p s).1 = (w.memory_map.remove fmt p s).1 := rfl

theorem free_memory_memory_map (fmt : Nat → String) (w : World) (p : Nat) (s : Bool) :
    (free_memory fmt w p s).2.memory_map = (w.memory_map.remove fmt p s).2 := rfl

theorem free_memory_cerr (fmt : Nat → String) (w : World) (p : Nat) (s : Bool) :
    (free_memory fmt w p s).2.cerr
      = (if (w.memory_map.remove fmt p s).1.success = true then w.cerr
         else w.cerr ++ ("WARN new_delete_checker: "
                ++ ((w.memory_map.remove fmt p s).1.error ++ "\n"))) := by
  cases h : (w.memory_map.remove fmt p s).1.success <;>
    simp [free_memory, h, String.append_assoc]

/-- C13: for distinct addresses `A` and `B`, after a scalar `A` (4 bytes,
`f.cpp:10`) and an array `B` (80 bytes, line 11) are recorded into the empty
registry, releasing `A` as an array fails and writes one warning whose message
is the address `A`, the call site `f.cpp:10` and the instruction to use
`delete`; releasing `B` as an array then succeeds and writes nothing; the
registry is empty and teardown writes no leak line. -/
theorem scenario_scalar_released_as_array (fmt : Nat → String) (A B : Nat)
    (cerr0 cerr1 : String) (fr : List Nat) (h : A ≠ B) :
    (free_memory fmt { memory_map := scenario_registry A B, cerr := cerr0, freed := fr }
        A true).1.success = false
    ∧ (free_memory fmt { memory_map := scenario_registry A B, cerr := cerr0, freed := fr }
        A true).1.error
      = fmt A ++ " (allocated at f.cpp:10) as NOT ARRAY ---> use 'delete' instead of 'delete[]'"
    ∧ (free_memory fmt { memory_map := scenario_registry A B, cerr := cerr0, freed := fr }
        A true).2.cerr
      = cerr0 ++ ("WARN new_delete_checker: " ++ (fmt A
          ++ " (allocated at f.cpp:10) as NOT ARRAY ---> use 'delete' instead of 'delete[]'\n"))
    ∧ (free_memory fmt
        (free_memory fmt { memory_map := scenario_registry A B, cerr := cerr0, freed := fr }
          A true).2 B true).1 = { success := true, error := "" }
    ∧ (free_memory fmt
        (free_memory fmt { memory_map := scenario_registry A B, cerr := cerr0, freed := fr }
          A true).2 B true).2.cerr
      = (free_memory fmt { memory_map := scenario_registry A B, cerr := cerr0, freed := fr }
          A true).2.cerr
    ∧ (free_memory fmt
        (free_memory fmt { memory_map := scenario_registry A B, cerr := cerr0, freed := fr }
          A true).2 B true).2.memory_map = MemoryInfoManager.empty
    ∧ ((free_memory fmt
        (free_memory fmt { memory_map := scenario_registry A B, cerr := cerr0, freed := fr }
          A true).2 B true).2.memory_map.destructor fmt cerr1).2 = cerr1 := by
  have hBA : ¬ B = A := fun e => h e.symm
  have hroot : (scenario_registry A B).list_root
      = [ { ptr := B, size := 80, is_array := true, file := "f.cpp", line := 11 },
          { ptr := A, size := 4, is_array := false, file := "f.cpp", line := 10 } ] := rfl
  have hmsg : remove_error fmt
      (some { ptr := A, size := 4, is_array := false, file := "f.cpp", line := 10 }) A true
      = fmt A ++ " (allocated at f.cpp:10) as NOT ARRAY ---> use 'delete' instead of 'delete[]'" := by
    rw [remove_error_scalar_array fmt _ A rfl]
    simp only [String.append_assoc]
    rfl
  have hne : fmt A ++ " (allocated at f.cpp:10) as NOT ARRAY ---> use 'delete' instead of 'delete[]'"
      ≠ "" := string_append_ne_empty_right _ _ (by decide)
  have h1 : ((scenario_registry A B).remove fmt A true).1
      = MemoryOperationResult.ctor
          (fmt A ++ " (allocated at f.cpp:10) as NOT ARRAY ---> use 'delete' instead of 'delete[]'") := by
    rw [remove_fst, hroot, ← hmsg]
    simp [List.find?, hBA]
  have h2 : ((scenario_registry A B).remove fmt A true).2
      = { list_root :=
            [ { ptr := B, size := 80, is_array := true, file := "f.cpp", line := 11 } ] } := by
    rw [remove_snd, hroot]
    simp [List.eraseP_cons, hBA]
  have h3 : (MemoryInfoManager.remove fmt
      { list_root := [ { ptr := B, size := 80, is_array := true, file := "f.cpp", line := 11 } ] }
      B true) = ({ success := true, error := "" }, MemoryInfoManager.empty) := by
    simp [MemoryInfoManager.remove, MemoryInfoManager.extract_info, extract_loop, remove_error,
      MemoryOperationResult.ctor, MemoryInfoManager.empty]
  have hs1 : ((scenario_registry A B).remove fmt A true).1.success = false := by
    rw [h1, ctor_success]
    simpa using hne
  refine ⟨?_, ?_, ?_, ?_, ?_, ?_, ?_⟩
  · rw [free_memory_fst]
    exact hs1
  · rw [free_memory_fst, h1, ctor_error]
  · rw [free_memory_cerr, if_neg (by rw [hs1]; decide), h1, ctor_error, String.append_assoc]
    rfl
  · rw [free_memory_fst, free_memory_memory_map, h2, h3]
  · rw [free_memory_cerr, free_memory_memory_map, h2, h3]
    simp
  · rw [free_memory_memory_map, free_memory_memory_map, h2, h3]
  · rw [free_memory_memory_map, free_memory_memory_map, h2, h3]
    rfl

/-- Witness of C13 with `A = 100` and `B = 200`. -/
theorem scenario_scalar_released_as_array_witness :
    (100 : Nat) ≠ 200
    ∧ (free_memory fmt0 { memory_map := scenario_registry 100 200, cerr := "", freed := [] }
        100 true).1.success = false
    ∧ (free_memory fmt0 { memory_map := scenario_registry 100 200, cerr := "", freed := [] }
        100 true).1.error
      = fmt0 100
          ++ " (allocated at f.cpp:10) as NOT ARRAY ---> use 'delete' instead of 'delete[]'"
    ∧ (free_memory fmt0
        (free_memory fmt0 { memory_map := scenario_registry 100 200, cerr := "", freed := [] }
          100 true).2 200 true).1 = { success := true, error := "" }
    ∧ (free_memory fmt0
        (free_memory fmt0 { memory_map := scenario_registry 100 200, cerr := "", freed := [] }
          100 true).2 200 true).2.memory_map = MemoryInfoManager.empty :=
  have w := scenario_scalar_released_as_array fmt0 100 200 "" "" [] (by decide)
  ⟨by decide, w.1, w.2.1, w.2.2.2.1, w.2.2.2.2.2.1⟩

theorem remove_after_add (fmt : Nat → String) (m : MemoryInfoManager) (a n : Nat)
    (sh : Bool) (f : String) (l : Int) (s : Bool) :
    (m.add a n sh f l).remove fmt a s
      = (MemoryOperationResult.ctor
          (remove_error fmt
            (some { ptr := a, size := n, is_array := sh, file := f, line := l }) a s), m) := by
  have h1 := remove_fst fmt (m.add a n sh f l) a s
  have h2 := remove_snd fmt (m.add a n sh f l) a s
  rw [add_list_root] at h1 h2
  simp only [List.find?_cons, decide_True] at h1
  simp only [List.eraseP_cons, decide_True, cond_true] at h2
  exact Prod.ext h1 h2

theorem string_join_append (xs ys : List String) :
    String.join (xs ++ ys) = String.join xs ++ String.join ys := by
  induction xs with
  | nil => simp [String.join]
  | cons x xs ih =>
    rw [List.cons_append, string_join_cons, string_join_cons, ih, String.append_assoc]

/-- C15: `add` of an address the registry already holds a record for neither
rejects nor overwrites: the new record goes in front and the old one stays, so
two records hold the address. The following `remove` checks the requested
shape against the new record only and takes only that one out: the registry is
back to what it was, the older record is still in it, and teardown writes a
leak line for it. -/
theorem add_duplicate_address (fmt : Nat → String) (m : MemoryInfoManager)
    (r0 : MemoryChunkInfoItem) (a n : Nat) (sh : Bool) (f : String) (l : Int) (s : Bool)
    (cerr : String) (hr0 : r0 ∈ m.list_root) (ha : r0.ptr = a) :
    (m.add a n sh f l).list_root
        = { ptr := a, size := n, is_array := sh, file := f, line := l } :: m.list_root
    ∧ 2 ≤ (m.add a n sh f l).addresses.count a
    ∧ (((m.add a n sh f l).remove fmt a s).1.success = true ↔ sh = s)
    ∧ ((m.add a n sh f l).remove fmt a s).1.error
        = remove_error fmt
            (some { ptr := a, size := n, is_array := sh, file := f, line := l }) a s
    ∧ ((m.add a n sh f l).remove fmt a s).2 = m
    ∧ r0 ∈ ((m.add a n sh f l).remove fmt a s).2.list_root
    ∧ ∃ before after,
        (((m.add a n sh f l).remove fmt a s).2.destructor fmt cerr).2
          = cerr ++ (before ++ ((spec_leak_report fmt r0 ++ "\n") ++ after)) := by
  have hin : a ∈ m.addresses := by
    rw [← ha]
    exact List.mem_map_of_mem _ hr0
  refine ⟨add_list_root m a n sh f l, ?_, ?_, ?_, ?_, ?_, ?_⟩
  · rw [add_addresses, List.count_cons_self]
    have := List.one_le_count_iff.mpr hin
    omega
  · rw [remove_after_add]
    show decide (remove_error fmt _ a s = "") = true ↔ sh = s
    rw [decide_eq_true_iff]
    exact remove_error_some_eq_empty_iff fmt _ a s
  · rw [remove_after_add]
    rfl
  · rw [remove_after_add]
  · rw [remove_after_add]
    exact hr0
  · rw [remove_after_add]
    obtain ⟨l1, l2, hsplit⟩ := List.append_of_mem hr0
    refine ⟨String.join (l1.map (fun r => spec_leak_report fmt r ++ "\n")),
      String.join (l2.map (fun r => spec_leak_report fmt r ++ "\n")), ?_⟩
    show destructor_loop fmt m.list_root cerr = _
    rw [destructor_loop_eq, hsplit, List.map_append, List.map_cons, string_join_append,
      string_join_cons]

/-- Witness of C15 on the example registry: address 100 is handed out again
while its first record is still live. -/
theorem add_duplicate_address_witness :
    ({ ptr := 100, size := 4, is_array := false, file := "f.cpp", line := 10 }
        : MemoryChunkInfoItem) ∈ registry_ab.list_root
    ∧ 2 ≤ (registry_ab.add 100 8 true "g.cpp" 3).addresses.count 100
    ∧ ((registry_ab.add 100 8 true "g.cpp" 3).remove fmt0 100 true).2 = registry_ab
    ∧ ({ ptr := 100, size := 4, is_array := false, file := "f.cpp", line := 10 }
        : MemoryChunkInfoItem)
        ∈ ((registry_ab.add 100 8 true "g.cpp" 3).remove fmt0 100 true).2.list_root :=
  have w := add_duplicate_address fmt0 registry_ab
    { ptr := 100, size := 4, is_array := false, file := "f.cpp", line := 10 }
    100 8 true "g.cpp" 3 true "" (by decide) rfl
  ⟨by decide, w.2.1, w.2.2.2.2.1, w.2.2.2.2.2.1⟩

/-- C17: `add` of an allocation followed at once by `remove` of its address
with the shape it was recorded with returns success and gives back exactly the
registry there was before the `add`, also when that registry already held a
record for the address. -/
theorem add_then_remove_round_trip (fmt : Nat → String) (m : MemoryInfoManager) (a n : Nat)
    (s : Bool) (f : String) (l : Int) :
    ((m.add a n s f l).remove fmt a s).1 = { success := true, error := "" }
    ∧ ((m.add a n s f l).remove fmt a s).2 = m := by
  rw [remove_after_add]
  refine ⟨?_, rfl⟩
  have h := remove_error_match fmt
    { ptr := a, size := n, is_array := s, file := f, line := l } a
  simp only at h
  show MemoryOperationResult.ctor _ = _
  rw [h]
  rfl


/-! ## Releases with the hooks they re-enter -/

theorem library_block_leaves_no_record (fmt : Nat → String) (w : World) (p n : Nat)
    (hp : p ≠ 0) :
    (operator_new w p n).1 = AllocationOutcome.returned p
    ∧ operator_delete fmt (operator_new w p n).2 p
        = { memory_map := w.memory_map, cerr := w.cerr, freed := p :: w.freed } := by
  have hnew : operator_new w p n
      = (AllocationOutcome.returned p,
          { memory_map := w.memory_map.add p n false "UNKNOWN" (-1), cerr := w.cerr,
            freed := w.freed }) := by
    simp [operator_new, allocate_memory, hp]
  have hrem := remove_after_add fmt w.memory_map p n false "UNKNOWN" (-1) false
  have hmsg : remove_error fmt
      (some { ptr := p, size := n, is_array := false, file := "UNKNOWN", line := -1 }) p false
      = "" := remove_error_match fmt
        { ptr := p, size := n, is_array := false, file := "UNKNOWN", line := -1 } p
  rw [hmsg] at hrem
  refine ⟨by rw [hnew], ?_⟩
  rw [hnew]
  simp only [operator_delete, free_memory, hrem]
  rfl

end new_delete_checker_internal
